import Mathlib

/-!
# NSCH3 proximity-triggered ledger protocol — verification development

A shallow embedding of the points-ledger and proximity-cooldown core of the
NSCH3 repository, with theorems settling the specification claims.

JavaScript objects used as integer maps (`Record<string, number>` wallets)
are embedded as association lists `List (String × Int)`: reading an absent
key yields 0 (mirroring `obj[k] || 0`), assignment replaces the first
occurrence in place or appends (mirroring `{...obj, [k]: v}` spreads and
property writes), and `delete obj[k]` removes the key.
-/

set_option autoImplicit false

abbrev SMap := List (String × Int)

/-- Property read `m[k]`: `some v` when the key is present. -/
def alGet? {β : Type} : List (String × β) → String → Option β
  | [], _ => none
  | (k', v') :: rest, k => if k' = k then some v' else alGet? rest k

/-- Property write `m[k] = v`: replace in place, or append when absent. -/
def alSet {β : Type} : List (String × β) → String → β → List (String × β)
  | [], k, v => [(k, v)]
  | (k', v') :: rest, k, v =>
    if k' = k then (k, v) :: rest else (k', v') :: alSet rest k v

/-- `delete m[k]`: remove the key from the mapping. -/
def alErase {β : Type} : List (String × β) → String → List (String × β)
  | [], _ => []
  | (k', v') :: rest, k =>
    if k' = k then alErase rest k else (k', v') :: alErase rest k

/-- Read `m[k] || 0`: absent keys read as 0. -/
def mget (m : SMap) (k : String) : Int :=
  (alGet? m k).getD 0

/-- Sum of all balances held in the mapping. -/
def msum (m : SMap) : Int :=
  (m.map fun p => p.2).sum

/-- All balances in the mapping are non-negative. -/
def SMap.NonNeg (m : SMap) : Prop :=
  ∀ p ∈ m, 0 ≤ p.2

theorem alGet?_alSet_self {β : Type} (m : List (String × β)) (k : String) (v : β) :
    alGet? (alSet m k v) k = some v := by
  induction m with
  | nil => simp [alSet, alGet?]
  | cons p rest ih =>
    obtain ⟨k', v'⟩ := p
    by_cases h : k' = k
    · simp [alSet, h, alGet?]
    · simp [alSet, h, alGet?, ih]

theorem alGet?_alSet_ne {β : Type} (m : List (String × β)) {k k' : String} (v : β)
    (h : k' ≠ k) : alGet? (alSet m k v) k' = alGet? m k' := by
  induction m with
  | nil => simp [alSet, alGet?, Ne.symm h]
  | cons p rest ih =>
    obtain ⟨k₀, v₀⟩ := p
    by_cases h₀ : k₀ = k
    · subst h₀
      simp [alSet, alGet?, Ne.symm h]
    · simp [alSet, h₀, alGet?, ih]

theorem alGet?_alErase {β : Type} (m : List (String × β)) (k : String) :
    alGet? (alErase m k) k = none := by
  induction m with
  | nil => simp [alErase, alGet?]
  | cons p rest ih =>
    obtain ⟨k₀, v₀⟩ := p
    by_cases h₀ : k₀ = k
    · simpa [alErase, h₀] using ih
    · simp [alErase, h₀, alGet?, ih]

theorem alGet?_alErase_ne {β : Type} (m : List (String × β)) {k k' : String}
    (h : k' ≠ k) : alGet? (alErase m k) k' = alGet? m k' := by
  induction m with
  | nil => simp [alErase]
  | cons p rest ih =>
    obtain ⟨k₀, v₀⟩ := p
    by_cases h₀ : k₀ = k
    · subst h₀
      simp [alErase, alGet?, Ne.symm h, ih]
    · simp [alErase, h₀, alGet?, ih]

theorem mget_alSet_self (m : SMap) (k : String) (v : Int) :
    mget (alSet m k v) k = v := by
  simp [mget, alGet?_alSet_self]

theorem mget_alSet_ne (m : SMap) {k k' : String} (v : Int) (h : k' ≠ k) :
    mget (alSet m k v) k' = mget m k' := by
  simp [mget, alGet?_alSet_ne m v h]

theorem mget_alErase (m : SMap) (k : String) : mget (alErase m k) k = 0 := by
  simp [mget, alGet?_alErase]

/-- Writing `m[k] = (m[k] || 0) + a` changes the total of the mapping by `a`. -/
theorem msum_alSet_add (m : SMap) (k : String) (a : Int) :
    msum (alSet m k (mget m k + a)) = msum m + a := by
  induction m with
  | nil => simp [alSet, msum, mget, alGet?]
  | cons p rest ih =>
    obtain ⟨k₀, v₀⟩ := p
    by_cases h₀ : k₀ = k
    · subst h₀
      simp [alSet, msum, mget, alGet?]
      ring
    · simp [alSet, h₀, msum, mget, alGet?, Ne.symm h₀] at ih ⊢
      omega

theorem nonneg_mget : ∀ {m : SMap}, SMap.NonNeg m → ∀ k, 0 ≤ mget m k := by
  intro m
  induction m with
  | nil => intro _ k; simp [mget, alGet?]
  | cons p rest ih =>
    intro h k
    obtain ⟨k₀, v₀⟩ := p
    by_cases h₀ : k₀ = k
    · have := h (k₀, v₀) (by simp)
      simpa [mget, alGet?, h₀] using this
    · have hrest : SMap.NonNeg rest := fun q hq => h q (List.mem_cons_of_mem _ hq)
      simpa [mget, alGet?, h₀] using ih hrest k

theorem nonneg_alSet : ∀ {m : SMap}, SMap.NonNeg m → ∀ {v : Int}, 0 ≤ v →
    ∀ k, SMap.NonNeg (alSet m k v) := by
  intro m
  induction m with
  | nil =>
    intro _ v hv k p hp
    simp [alSet] at hp
    simp [hp, hv]
  | cons q rest ih =>
    intro h v hv k p hp
    obtain ⟨k₀, v₀⟩ := q
    have hrest : SMap.NonNeg rest := fun q hq => h q (List.mem_cons_of_mem _ hq)
    by_cases h₀ : k₀ = k
    · simp [alSet, h₀] at hp
      rcases hp with hp | hp
      · simp [hp, hv]
      · exact h p (by simp [hp])
    · simp [alSet, h₀] at hp
      rcases hp with hp | hp
      · exact h p (by simp [hp])
      · exact ih hrest hv k p hp

theorem nonneg_alErase : ∀ {m : SMap}, SMap.NonNeg m → ∀ k,
    SMap.NonNeg (alErase m k) := by
  intro m
  induction m with
  | nil => intro _ k p hp; simp [alErase] at hp
  | cons q rest ih =>
    intro h k p hp
    obtain ⟨k₀, v₀⟩ := q
    have hrest : SMap.NonNeg rest := fun q hq => h q (List.mem_cons_of_mem _ hq)
    by_cases h₀ : k₀ = k
    · exact ih hrest k p (by simpa [alErase, h₀] using hp)
    · simp [alErase, h₀] at hp
      rcases hp with hp | hp
      · exact h p (by simp [hp])
      · exact ih hrest k p hp

/-!
## PointsService — `src/LoyaltyLand/services/pointsService.ts`

Three-pool wallet: `locked` (per-organization), `universal` (scalar),
`designated` (per-organization slices of the universal pool).
-/

namespace PointsService

structure PointsWallet where
  locked : SMap
  universal : Int
  designated : SMap
  deriving Repr, DecidableEq

/-- The `|| { locked: {}, universal: 0, designated: {} }` default wallet. -/
def emptyWallet : PointsWallet := ⟨[], 0, []⟩

/-- Transaction body of `designateUniversalPoints` (lines 99–122): move
`amount` from the universal pool into `designated[orgId]`, rejecting when
`wallet.universal < amount`. `none` models the thrown error (the Firestore
transaction aborts, leaving the wallet unchanged). -/
def designateUniversalPoints (wallet : PointsWallet) (orgId : String)
    (amount : Int) : Option PointsWallet :=
  if wallet.universal < amount then none
  else some { wallet with
    universal := wallet.universal - amount,
    designated := alSet wallet.designated orgId
      (mget wallet.designated orgId + amount) }

/-- Transaction body of `redeemDeal` (lines 153–212): check
`locked[orgId] + designated[orgId]` against `cost`, then spend locked points
first and designated points second, deleting a pool entry that lands on
exactly 0. Returns the updated wallet with `(lockedSpent, designatedSpent)`;
`none` models the thrown insufficient-points error (transaction aborts). -/
def redeemDealCore (wallet : PointsWallet) (orgId : String) (cost : Int) :
    Option (PointsWallet × Int × Int) :=
  let lockedPoints := mget wallet.locked orgId
  let designatedPoints := mget wallet.designated orgId
  let totalBuyingPower := lockedPoints + designatedPoints
  if totalBuyingPower < cost then none
  else
    let step1 :=
      if 0 < lockedPoints then
        let lockedSpent := min lockedPoints cost
        let l1 := alSet wallet.locked orgId (lockedPoints - lockedSpent)
        let l2 := if lockedPoints - lockedSpent = 0 then alErase l1 orgId else l1
        (l2, lockedSpent, cost - lockedSpent)
      else (wallet.locked, 0, cost)
    let remainingCost := step1.2.2
    let step2 :=
      if 0 < remainingCost ∧ 0 < designatedPoints then
        let designatedSpent := min designatedPoints remainingCost
        let d1 := alSet wallet.designated orgId
          (designatedPoints - designatedSpent)
        let d2 := if designatedPoints - designatedSpent = 0
          then alErase d1 orgId else d1
        (d2, designatedSpent)
      else (wallet.designated, 0)
    some (⟨step1.1, wallet.universal, step2.1⟩, step1.2.1, step2.2)

/-- Transaction body of the service-level `awardPoints` (lines 254–277):
volunteer points go to the universal pool; otherwise a truthy `orgId` locks
them to that organization, and a null/empty `orgId` leaves the wallet
untouched. -/
def awardPointsService (wallet : PointsWallet) (orgId : Option String)
    (amount : Int) (isVolunteer : Bool) : PointsWallet :=
  if isVolunteer then { wallet with universal := wallet.universal + amount }
  else match orgId with
    | some o =>
      if o = "" then wallet
      else { wallet with locked := alSet wallet.locked o (mget wallet.locked o + amount) }
    | none => wallet

/-- Audit row written by `redeemDeal` into the `transactions` collection
(lines 215–226). -/
structure SpendRecord where
  userId : String
  orgId : String
  dealId : String
  pointsSpent : Int
  breakdownLocked : Int
  breakdownDesignated : Int
  deriving Repr, DecidableEq

structure RedemptionResult where
  transactionId : Nat
  lockedSpent : Int
  designatedSpent : Int
  deriving Repr, DecidableEq

inductive RedeemErr
  | userNotFound
  | insufficientPoints (got need : Int)
  | storageFailure
  deriving Repr, DecidableEq

/-- Store visible to `redeemDeal`: the per-user wallets and the append-only
`transactions` collection (newest record first). -/
structure ServiceState where
  users : List (String × PointsWallet)
  transactions : List SpendRecord
  deriving Repr, DecidableEq

/-- Whole-procedure model of `redeemDeal` (lines 144–236): the balance check
and wallet mutation run inside one Firestore transaction, and only after it
commits does a separate `addDoc` append the audit record. `auditOk` is the
outcome of that later `addDoc` write: when it is `false` the promise rejects
— but the already-committed wallet mutation stands. -/
def redeemDealRun (st : ServiceState) (userId orgId dealId : String)
    (cost : Int) (auditOk : Bool) :
    ServiceState × Except RedeemErr RedemptionResult :=
  match alGet? st.users userId with
  | none => (st, .error .userNotFound)
  | some wallet =>
    match redeemDealCore wallet orgId cost with
    | none =>
      (st, .error (.insufficientPoints
        (mget wallet.locked orgId + mget wallet.designated orgId) cost))
    | some (wallet', lockedSpent, designatedSpent) =>
      let st1 : ServiceState :=
        { st with users := alSet st.users userId wallet' }
      if auditOk then
        let row : SpendRecord :=
          ⟨userId, orgId, dealId, cost, lockedSpent, designatedSpent⟩
        ({ st1 with transactions := row :: st1.transactions },
          .ok ⟨st1.transactions.length, lockedSpent, designatedSpent⟩)
      else (st1, .error .storageFailure)

end PointsService

/-!
## TransactionService — `src/unnamed/part_002`

Flat wallet `Record<string, number>` with a `universal` key; `claimPoints`
earns, `redeemReward` spends from the universal pool only.
-/

namespace TransactionService

structure OrbInfo where
  orgId : String
  orgName : String
  defaultPoints : Int
  deriving Repr, DecidableEq

/-- `ORB_TO_ORG_MAP` lookup with the universal/demo fallback (lines 44–57). -/
def getOrgFromOrbId (orbId : String) : OrbInfo :=
  if orbId = "ORB_001" then ⟨"jacob_alejandro_troy", "Jacob Alejandro", 10⟩
  else if orbId = "ORB_002" then ⟨"muddys_coffeehouse", "Muddy\x27s Coffeehouse", 10⟩
  else if orbId = "ORB_003" then ⟨"rpi_campus_store", "RPI Campus Store", 10⟩
  else if orbId = "DEMO_ORB" then ⟨"universal", "Demo Store", 25⟩
  else ⟨"universal", "Local Business", 20⟩

/-- `eventPoints || defaultPoints` (line 69): a missing or zero
`eventPoints` falls back to the orb default. -/
def pointsToAward (eventPoints : Option Int) (defaultPoints : Int) : Int :=
  match eventPoints with
  | some e => if e = 0 then defaultPoints else e
  | none => defaultPoints

/-- Transaction body of `claimPoints` (lines 75–97): a merge-set that
increments `pointsWallet[orgId]`, `pointsWallet.universal` and
`totalPointsEarned`. The update object literal spells the wallet as
`{ ...currentWallet, [orgId]: increment(N), universal: increment(N) }`, so
when `orgId` resolves to `"universal"` the duplicate key collapses to a
single increment. Returns the updated `(wallet, totalEarned)` and the value
the function reports as `newBalance`. -/
def claimPointsCore (wallet : SMap) (totalEarned : Int) (orbId : String)
    (eventPoints : Option Int) : SMap × Int × Int :=
  let info := getOrgFromOrbId orbId
  let pts := pointsToAward eventPoints info.defaultPoints
  let currentUniversal := mget wallet "universal"
  let wallet' :=
    if info.orgId = "universal" then
      alSet wallet "universal" (currentUniversal + pts)
    else
      alSet (alSet wallet info.orgId (mget wallet info.orgId + pts))
        "universal" (currentUniversal + pts)
  (wallet', totalEarned + pts, currentUniversal + pts)

/-- Transaction body of `redeemReward` (lines 140–164): all spending draws
from the `universal` key; `none` models the thrown insufficient-points
error (transaction aborts, wallet unchanged). -/
def redeemRewardCore (wallet : SMap) (totalSpent : Int) (rewardCost : Int) :
    Option (SMap × Int × Int) :=
  let currentBalance := mget wallet "universal"
  if currentBalance < rewardCost then none
  else some (alSet wallet "universal" (currentBalance - rewardCost),
    totalSpent + rewardCost, currentBalance - rewardCost)

/-- Audit row appended by `claimPoints` after its transaction commits
(lines 100–107). -/
structure EarnRecord where
  userId : String
  orgId : String
  amount : Int
  orbId : String
  deriving Repr, DecidableEq

/-- Store visible to `claimPoints`: per-user `(pointsWallet, totalPointsEarned)`
documents (the wallet defaults to `{}` for an unknown user, since the code
reads `userDoc.data() || {}`) and the `transactions` collection. -/
structure ClaimState where
  users : List (String × (SMap × Int))
  transactions : List EarnRecord
  deriving Repr, DecidableEq

/-- Whole-procedure model of `claimPoints` (lines 63–121): the wallet update
runs in a Firestore transaction; the audit `addDoc` is a separate write
issued only after the transaction commits, and `auditOk` is its outcome —
when it is `false` the promise rejects but the committed wallet update
stands. -/
def claimPointsRun (st : ClaimState) (userId orbId : String)
    (eventPoints : Option Int) (auditOk : Bool) :
    ClaimState × Except Unit Int :=
  let current := (alGet? st.users userId).getD ([], 0)
  let out := claimPointsCore current.1 current.2 orbId eventPoints
  let st1 : ClaimState :=
    { st with users := alSet st.users userId (out.1, out.2.1) }
  if auditOk then
    let info := getOrgFromOrbId orbId
    let pts := pointsToAward eventPoints info.defaultPoints
    ({ st1 with transactions :=
        ⟨userId, info.orgId, pts, orbId⟩ :: st1.transactions },
      .ok out.2.2)
  else (st1, .error ())

end TransactionService

/-!
## Cloud function — `src/functions/src/awardPoints.ts`

The transactional earn path with the idempotency guard and the hard-lock
routing policy.
-/

namespace Functions

/-- `events/{eventId}` document. -/
structure EventDoc where
  points : Int
  hostOrgId : String
  type : Option String
  name : Option String
  deriving Repr, DecidableEq

/-- `users/{userId}` document as read by the function. -/
structure UserDoc where
  preferredStore : Option String
  pointsWallet : Option SMap
  totalPointsEarned : Option Int
  deriving Repr, DecidableEq

/-- Row of the `transactions` collection created in step 7. -/
structure TxRecord where
  txType : String
  userId : String
  eventId : String
  eventName : Option String
  hostOrgId : String
  destination : String
  pointsEarned : Int
  isVolunteer : Bool
  deriving Repr, DecidableEq

structure AwardPointsResult where
  pointsAwarded : Int
  destination : String
  isVolunteer : Bool
  deriving Repr, DecidableEq

inductive AwardErr
  | alreadyExists
  | eventNotFound
  | userNotFound
  | noPointValue
  | noHostOrg
  deriving Repr, DecidableEq

structure CloudState where
  events : List (String × EventDoc)
  users : List (String × UserDoc)
  transactions : List TxRecord
  deriving Repr, DecidableEq

/-- `VOLUNTEER_POINT_VALUES = [VOLUNTEER_SHORT, VOLUNTEER_LONG]` (lines 6–9). -/
def VOLUNTEER_POINT_VALUES : List Int := [20, 100]

/-- Step 4 (lines 146–151): an event is a volunteer event when its `type`
field says so or when its point value is one of the volunteer point values. -/
def isVolunteerEvent (ev : EventDoc) : Bool :=
  ev.type = some "volunteer" || VOLUNTEER_POINT_VALUES.contains ev.points

/-- Step 5 (lines 153–162), Option A hard lock: volunteer points go to a
truthy `preferredStore` with `hostOrgId` fallback; business-event points are
locked to the hosting organization. -/
def destinationFor (ev : EventDoc) (preferredStore : Option String) : String :=
  if isVolunteerEvent ev then
    match preferredStore with
    | some p => if p = "" then ev.hostOrgId else p
    | none => ev.hostOrgId
  else ev.hostOrgId

/-- The idempotency query of step 1 (lines 86–94): an existing
`transactions` row with this `userId`, `eventId` and type `earn`. -/
def hasEarnRecord (txs : List TxRecord) (userId eventId : String) : Bool :=
  txs.any fun t => t.userId = userId && t.eventId = eventId && t.txType = "earn"

/-- The `awardPoints` Firestore transaction (lines 85–202). Every thrown
`HttpsError` aborts the transaction, so an `.error` outcome leaves the state
unchanged; on success the audit row creation and the user-document update
commit together (steps 7–8). -/
def awardPoints (st : CloudState) (userId eventId : String) :
    CloudState × Except AwardErr AwardPointsResult :=
  if hasEarnRecord st.transactions userId eventId then
    (st, .error .alreadyExists)
  else match alGet? st.events eventId with
  | none => (st, .error .eventNotFound)
  | some ev =>
    if ev.points ≤ 0 then (st, .error .noPointValue)
    else if ev.hostOrgId = "" then (st, .error .noHostOrg)
    else match alGet? st.users userId with
    | none => (st, .error .userNotFound)
    | some u =>
      let isVol := isVolunteerEvent ev
      let destination := destinationFor ev u.preferredStore
      let currentWallet := u.pointsWallet.getD []
      let currentBalance := mget currentWallet destination
      let currentTotalEarned := u.totalPointsEarned.getD 0
      let updatedWallet := alSet currentWallet destination
        (currentBalance + ev.points)
      let row : TxRecord :=
        ⟨"earn", userId, eventId, ev.name, ev.hostOrgId, destination,
          ev.points, isVol⟩
      let u' : UserDoc :=
        ⟨u.preferredStore, some updatedWallet,
          some (currentTotalEarned + ev.points)⟩
      ({ st with
          transactions := row :: st.transactions,
          users := alSet st.users userId u' },
        .ok ⟨ev.points, destination, isVol⟩)

end Functions

/-!
## UserOrb firmware — `src/firmware/UserOrb/UserOrb.ino`

Fixed-capacity cooldown tracking (array of `EventCooldown`, index 0 first)
and the RSSI threshold / cooldown logic of the scan callback. Timestamps are
`millis()` values modelled as `Nat`; the `unsigned long` subtraction
`millis() - last` coincides with truncated `Nat` subtraction in every
reachable state, because stamps are only ever 0 or an earlier `millis()`.
-/

namespace UserOrb

def RSSI_NEAR : Int := -80
def RSSI_CLAIM : Int := -40
def CLAIM_COOLDOWN_MS : Nat := 5000
def NEAR_COOLDOWN_MS : Nat := 3000
def MAX_TRACKED_EVENTS : Nat := 10

structure EventCooldown where
  eventId : String
  lastNearNotify : Nat
  lastClaimNotify : Nat
  deriving Repr, DecidableEq

/-- `findOrCreateCooldown` (lines 89–110): return the index of the entry for
`eventId`, appending a zero-initialized entry when there is room, and
overwriting slot 0 when the array is full. Returns the updated array and the
index of the entry for `eventId`. -/
def findOrCreateCooldown (cds : List EventCooldown) (eventId : String) :
    List EventCooldown × Nat :=
  match cds.findIdx? (fun c => c.eventId == eventId) with
  | some i => (cds, i)
  | none =>
    if cds.length < MAX_TRACKED_EVENTS then
      (cds ++ [⟨eventId, 0, 0⟩], cds.length)
    else
      (cds.set 0 ⟨eventId, 0, 0⟩, 0)

/-- `canSendNear` (lines 112–114). -/
def canSendNear (now : Nat) (cooldown : EventCooldown) : Bool :=
  NEAR_COOLDOWN_MS < now - cooldown.lastNearNotify

/-- `canSendClaim` (lines 116–118). -/
def canSendClaim (now : Nat) (cooldown : EventCooldown) : Bool :=
  CLAIM_COOLDOWN_MS < now - cooldown.lastClaimNotify

/-- A `notifyPhone` message. -/
inductive Notification
  | claim (eventId : String)
  | near (eventId : String)
  deriving Repr, DecidableEq

/-- The cooldown/threshold logic of `BusinessOrbScanCallbacks::onResult`
(lines 170–187), after the event id has been resolved: look up or create the
cooldown entry, then in CLAIM range notify and refresh both stamps when the
claim cooldown allows, else in NEAR range notify and refresh the near stamp
when the near cooldown allows. -/
def processSample (cds : List EventCooldown) (eventId : String) (rssi : Int)
    (now : Nat) : List EventCooldown × Option Notification :=
  let found := findOrCreateCooldown cds eventId
  let cds1 := found.1
  let i := found.2
  let c := cds1.getD i ⟨eventId, 0, 0⟩
  if RSSI_CLAIM < rssi then
    if canSendClaim now c then
      (cds1.set i { c with lastClaimNotify := now, lastNearNotify := now },
        some (.claim eventId))
    else (cds1, none)
  else if RSSI_NEAR < rssi then
    if canSendNear now c then
      (cds1.set i { c with lastNearNotify := now }, some (.near eventId))
    else (cds1, none)
  else (cds1, none)

end UserOrb

/-!
## Claim theorems
-/

namespace PointsService

/-- **C9** — `designateUniversalPoints` conserves the wallet total: whenever
`universal ≥ amount` the operation succeeds, decreases `universal` by exactly
`amount`, increases `designated[orgId]` by exactly `amount`, leaves every
locked balance and every other designated balance untouched, and keeps
`universal + Σ designated` unchanged. The only guard in the code is
`wallet.universal < amount`, so the same transfer equation holds for
negative amounts. -/
theorem designate_transfer (wallet : PointsWallet) (orgId : String)
    (amount : Int) (h : amount ≤ wallet.universal) :
    ∃ wallet', designateUniversalPoints wallet orgId amount = some wallet' ∧
      wallet'.universal = wallet.universal - amount ∧
      mget wallet'.designated orgId = mget wallet.designated orgId + amount ∧
      wallet'.locked = wallet.locked ∧
      wallet'.universal + msum wallet'.designated
        = wallet.universal + msum wallet.designated ∧
      (∀ k, k ≠ orgId → mget wallet'.designated k = mget wallet.designated k) := by
  have hng : ¬ wallet.universal < amount := not_lt.mpr h
  have heq : designateUniversalPoints wallet orgId amount =
      some ⟨wallet.locked, wallet.universal - amount,
        alSet wallet.designated orgId (mget wallet.designated orgId + amount)⟩ := by
    rw [designateUniversalPoints, if_neg hng]
  refine ⟨_, heq, rfl, ?_, rfl, ?_, ?_⟩
  · exact mget_alSet_self _ _ _
  · rw [msum_alSet_add]
    ring
  · intro k hk
    exact mget_alSet_ne _ _ hk

/-- Witness for C9, exercised at a negative amount (the code never checks
that `amount` is positive: `-5 ≤ 0` passes the only guard and the transfer
equation still holds, leaving a negative designated balance). -/
theorem designate_transfer_witness :
    ((-5 : Int) ≤ (0 : Int)) ∧
    ∃ wallet', designateUniversalPoints ⟨[("a", 1)], 0, []⟩ "org" (-5)
        = some wallet' ∧
      wallet'.universal = 5 ∧ mget wallet'.designated "org" = -5 := by
  refine ⟨by norm_num, ?_⟩
  obtain ⟨w', heq, hu, hd, -, -, -⟩ :=
    designate_transfer ⟨[("a", 1)], 0, []⟩ "org" (-5) (by norm_num)
  refine ⟨w', heq, by rw [hu]; decide, by rw [hd]; decide⟩

/-- **C4** — a spend whose cost exceeds the applicable pools fails with the
insufficient-balance error and performs no mutation whatsoever: `redeemDeal`
returns the untouched store together with the error carrying the available
total and the requested cost (the UI computes the shortfall from these), and
`redeemReward` (universal-pool spends) likewise aborts with no update. -/
theorem insufficient_spend_no_mutation :
    (∀ (st : ServiceState) (userId orgId dealId : String) (cost : Int)
        (auditOk : Bool) (wallet : PointsWallet),
      alGet? st.users userId = some wallet →
      mget wallet.locked orgId + mget wallet.designated orgId < cost →
      redeemDealRun st userId orgId dealId cost auditOk =
        (st, .error (.insufficientPoints
          (mget wallet.locked orgId + mget wallet.designated orgId) cost)))
    ∧ (∀ (wallet : SMap) (totalSpent rewardCost : Int),
      mget wallet "universal" < rewardCost →
      TransactionService.redeemRewardCore wallet totalSpent rewardCost = none) := by
  constructor
  · intro st userId orgId dealId cost auditOk wallet hw hlow
    rw [redeemDealRun, hw]
    unfold redeemDealCore
    simp only [if_pos hlow]
  · intro wallet totalSpent rewardCost hlow
    rw [TransactionService.redeemRewardCore]
    simp only [if_pos hlow]

/-- Witness for C4: the spec example — balances `{"cafe1": 30}` with a spend
of 50 pinned to `"cafe1"` fails with available 30 / requested 50 (shortfall
20) and the store is unchanged; and a universal wallet of 5 cannot cover a
reward costing 6. -/
theorem insufficient_spend_no_mutation_witness :
    redeemDealRun ⟨[("u2", ⟨[("cafe1", 30)], 0, []⟩)], []⟩ "u2" "cafe1" "d1"
        50 true
      = (⟨[("u2", ⟨[("cafe1", 30)], 0, []⟩)], []⟩,
        .error (.insufficientPoints 30 50)) ∧
    TransactionService.redeemRewardCore [("universal", 5)] 0 6 = none := by
  constructor
  · have := insufficient_spend_no_mutation.1
      ⟨[("u2", ⟨[("cafe1", 30)], 0, []⟩)], []⟩ "u2" "cafe1" "d1" 50 true
      ⟨[("cafe1", 30)], 0, []⟩ (by rfl) (by decide)
    simpa using this
  · exact insufficient_spend_no_mutation.2 [("universal", 5)] 0 6 (by decide)

end PointsService

theorem mget_pos_or_absent (m : SMap) (k : String)
    (h : ∀ v, alGet? m k = some v → 0 < v) :
    0 < mget m k ∨ (mget m k = 0 ∧ alGet? m k = none) := by
  cases heq : alGet? m k with
  | none => exact Or.inr ⟨by simp [mget, heq], rfl⟩
  | some v => exact Or.inl (by simpa [mget, heq] using h v heq)

namespace PointsService

/-- **C6** — multi-pool spend prioritization of `redeemDeal`: with locked
balance `L` and designated balance `D` at `orgId` (positive when present),
a spend of cost `C ≥ 0` is rejected when `L + D < C`; otherwise
`min L C` leaves the locked pool first and the remainder `C - min L C`
leaves the designated pool, a pool whose resulting balance is exactly zero
is deleted from the mapping, and the successful run records the
locked/designated split in the audit record. -/
theorem redeemDeal_prioritization (wallet : PointsWallet) (orgId : String)
    (cost : Int) (hc : 0 ≤ cost)
    (hl : ∀ v, alGet? wallet.locked orgId = some v → 0 < v)
    (hd : ∀ v, alGet? wallet.designated orgId = some v → 0 < v) :
    (mget wallet.locked orgId + mget wallet.designated orgId < cost →
      redeemDealCore wallet orgId cost = none) ∧
    (cost ≤ mget wallet.locked orgId + mget wallet.designated orgId →
      ∃ p, redeemDealCore wallet orgId cost = some p) ∧
    (∀ wallet' lockedSpent designatedSpent,
      redeemDealCore wallet orgId cost
          = some (wallet', lockedSpent, designatedSpent) →
      lockedSpent = min (mget wallet.locked orgId) cost ∧
      designatedSpent = cost - min (mget wallet.locked orgId) cost ∧
      mget wallet'.locked orgId = mget wallet.locked orgId - lockedSpent ∧
      mget wallet'.designated orgId
        = mget wallet.designated orgId - designatedSpent ∧
      wallet'.universal = wallet.universal ∧
      (mget wallet'.locked orgId = 0 → alGet? wallet'.locked orgId = none) ∧
      (mget wallet'.designated orgId = 0 →
        alGet? wallet'.designated orgId = none)) ∧
    (∀ (st : ServiceState) (userId dealId : String) (wallet' : PointsWallet)
        (ls ds : Int),
      alGet? st.users userId = some wallet →
      redeemDealCore wallet orgId cost = some (wallet', ls, ds) →
      (redeemDealRun st userId orgId dealId cost true).1.transactions
        = ⟨userId, orgId, dealId, cost, ls, ds⟩ :: st.transactions) := by
  have hLor := mget_pos_or_absent wallet.locked orgId hl
  have hDor := mget_pos_or_absent wallet.designated orgId hd
  have hL0 : 0 ≤ mget wallet.locked orgId := by
    rcases hLor with h | ⟨h, -⟩ <;> omega
  have hD0 : 0 ≤ mget wallet.designated orgId := by
    rcases hDor with h | ⟨h, -⟩ <;> omega
  have hLabs : mget wallet.locked orgId = 0 →
      alGet? wallet.locked orgId = none := by
    rcases hLor with h | ⟨-, h⟩
    · intro h0; omega
    · exact fun _ => h
  have hDabs : mget wallet.designated orgId = 0 →
      alGet? wallet.designated orgId = none := by
    rcases hDor with h | ⟨-, h⟩
    · intro h0; omega
    · exact fun _ => h
  refine ⟨?_, ?_, ?_, ?_⟩
  · intro hlow
    unfold redeemDealCore
    simp only [if_pos hlow]
  · intro hge
    unfold redeemDealCore
    rw [if_neg (not_lt.mpr hge)]
    exact ⟨_, rfl⟩
  · intro wallet' lockedSpent designatedSpent
    unfold redeemDealCore
    dsimp only
    split_ifs <;> intro heq
    all_goals
      first
      | exact heq.elim
      | exact Option.noConfusion heq
      | (dsimp only at *
         simp only [Option.some.injEq, Prod.mk.injEq] at heq
         obtain ⟨hw, hls, hds⟩ := heq
         subst hw
         subst hls
         subst hds
         refine ⟨by omega, by omega, ?_, ?_, rfl, ?_, ?_⟩
         all_goals try dsimp only
         all_goals try simp only [mget_alErase, mget_alSet_self,
           alGet?_alErase, alGet?_alSet_self, eq_self_iff_true, implies_true]
         all_goals first
           | rfl
           | omega
           | (intro habs; exfalso; omega)
           | exact hLabs
           | exact hDabs)
  · intro st userId dealId wallet' ls ds hwu hcore
    simp [redeemDealRun, hwu, hcore]

/-- Witness for C6: locked 30 + designated 25 at `"cafe1"`, spend 40 — the
hypotheses hold and the characterised split is 30 from the locked pool and
10 from the designated pool, with the emptied locked entry deleted. -/
theorem redeemDeal_prioritization_witness :
    (40 : Int) ≤ mget ([("cafe1", 30)] : SMap) "cafe1"
        + mget ([("cafe1", 25)] : SMap) "cafe1" ∧
    (∃ p, redeemDealCore ⟨[("cafe1", 30)], 0, [("cafe1", 25)]⟩ "cafe1" 40
      = some p) ∧
    (30 : Int) = min (mget ([("cafe1", 30)] : SMap) "cafe1") 40 ∧
    alGet? ([] : SMap) "cafe1" = none := by
  refine ⟨by decide, ?_, ?_, ?_⟩
  · exact (redeemDeal_prioritization ⟨[("cafe1", 30)], 0, [("cafe1", 25)]⟩
      "cafe1" 40 (by norm_num)
      (by intro v hv; simp [alGet?] at hv; omega)
      (by intro v hv; simp [alGet?] at hv; omega)).2.1 (by decide)
  · exact ((redeemDeal_prioritization ⟨[("cafe1", 30)], 0, [("cafe1", 25)]⟩
      "cafe1" 40 (by norm_num)
      (by intro v hv; simp [alGet?] at hv; omega)
      (by intro v hv; simp [alGet?] at hv; omega)).2.2.1
      ⟨[], 0, [("cafe1", 15)]⟩ 30 10 (by decide)).1
  · exact ((redeemDeal_prioritization ⟨[("cafe1", 30)], 0, [("cafe1", 25)]⟩
      "cafe1" 40 (by norm_num)
      (by intro v hv; simp [alGet?] at hv; omega)
      (by intro v hv; simp [alGet?] at hv; omega)).2.2.1
      ⟨[], 0, [("cafe1", 15)]⟩ 30 10 (by decide)).2.2.2.2.2.1 (by decide)

end PointsService

namespace Functions

/-- Success characterization of the `awardPoints` transaction: an `.ok`
outcome happened with no prior earn record, a valid event, an existing user,
and the state committed the audit row together with the wallet update. -/
theorem awardPoints_ok_elim {st st' : CloudState} {userId eventId : String}
    {r : AwardPointsResult}
    (h : awardPoints st userId eventId = (st', .ok r)) :
    hasEarnRecord st.transactions userId eventId = false ∧
    ∃ ev u, alGet? st.events eventId = some ev ∧
      alGet? st.users userId = some u ∧
      0 < ev.points ∧ ev.hostOrgId ≠ "" ∧
      r = ⟨ev.points, destinationFor ev u.preferredStore, isVolunteerEvent ev⟩ ∧
      st' = { st with
        transactions := ⟨"earn", userId, eventId, ev.name, ev.hostOrgId,
          destinationFor ev u.preferredStore, ev.points,
          isVolunteerEvent ev⟩ :: st.transactions,
        users := alSet st.users userId
          ⟨u.preferredStore,
            some (alSet (u.pointsWallet.getD [])
              (destinationFor ev u.preferredStore)
              (mget (u.pointsWallet.getD [])
                (destinationFor ev u.preferredStore) + ev.points)),
            some (u.totalPointsEarned.getD 0 + ev.points)⟩ } := by
  unfold awardPoints at h
  cases h1 : hasEarnRecord st.transactions userId eventId with
  | true => simp [h1] at h
  | false =>
    simp only [h1] at h
    cases hev : alGet? st.events eventId with
    | none => simp [hev] at h
    | some ev =>
      simp only [hev] at h
      by_cases hp : ev.points ≤ 0
      · simp [hp] at h
      · by_cases hh : ev.hostOrgId = ""
        · simp [hp, hh] at h
        · cases hu : alGet? st.users userId with
          | none => simp [hp, hh, hu] at h
          | some u =>
            simp only [hp, hh, hu, if_false, if_neg, Bool.false_eq_true,
              ite_false] at h
            rw [Prod.mk.injEq] at h
            obtain ⟨hst, hr⟩ := h
            rw [Except.ok.injEq] at hr
            exact ⟨rfl, ev, u, rfl, rfl, by omega, hh, hr.symm, hst.symm⟩

/-- **C2** — routing lock: for every settlement of a non-volunteer event
(neither typed `volunteer` nor carrying a volunteer point value) hosted by
`"biz_A"`, a successful `awardPoints` reports destination `"biz_A"`
unconditionally — for every stored user preference — never `"universal"`,
and the committed audit row carries the same destination. -/
theorem awardPoints_routing_lock (st st' : CloudState)
    (userId eventId : String) (ev : EventDoc) (r : AwardPointsResult)
    (hev : alGet? st.events eventId = some ev)
    (hvol : isVolunteerEvent ev = false)
    (hhost : ev.hostOrgId = "biz_A")
    (hok : awardPoints st userId eventId = (st', .ok r)) :
    r.destination = "biz_A" ∧ r.destination ≠ "universal" ∧
    (st'.transactions.head?.map fun t => t.destination) = some "biz_A" := by
  obtain ⟨-, ev', u, hev', hu, -, -, hr, hst⟩ := awardPoints_ok_elim hok
  rw [hev] at hev'
  have hee : ev' = ev := by
    injection hev'.symm
  subst hee
  have hdest : destinationFor ev' u.preferredStore = "biz_A" := by
    simp [destinationFor, hvol, hhost]
  refine ⟨?_, ?_, ?_⟩
  · rw [hr]
    exact hdest
  · rw [hr]
    simp only [hdest]
    decide
  · rw [hst]
    simp [hdest]

/-- Witness for C2: host `"biz_A"`, user preference `"biz_B"`, a 50-point
`event`-typed event — the settlement succeeds and routes to `"biz_A"`. -/
theorem awardPoints_routing_lock_witness :
    isVolunteerEvent ⟨50, "biz_A", some "event", none⟩ = false ∧
    AwardPointsResult.destination ⟨50, "biz_A", false⟩ = "biz_A" ∧
    AwardPointsResult.destination ⟨50, "biz_A", false⟩ ≠ "universal" := by
  refine ⟨by decide, ?_, ?_⟩
  · exact (awardPoints_routing_lock
      ⟨[("evt_9", ⟨50, "biz_A", some "event", none⟩)],
        [("u1", ⟨some "biz_B", some [], some 0⟩)], []⟩
      ⟨[("evt_9", ⟨50, "biz_A", some "event", none⟩)],
        [("u1", ⟨some "biz_B", some [("biz_A", 50)], some 50⟩)],
        [⟨"earn", "u1", "evt_9", none, "biz_A", "biz_A", 50, false⟩]⟩
      "u1" "evt_9" ⟨50, "biz_A", some "event", none⟩ ⟨50, "biz_A", false⟩
      (by decide) (by decide) rfl (by rfl)).1
  · exact (awardPoints_routing_lock
      ⟨[("evt_9", ⟨50, "biz_A", some "event", none⟩)],
        [("u1", ⟨some "biz_B", some [], some 0⟩)], []⟩
      ⟨[("evt_9", ⟨50, "biz_A", some "event", none⟩)],
        [("u1", ⟨some "biz_B", some [("biz_A", 50)], some 50⟩)],
        [⟨"earn", "u1", "evt_9", none, "biz_A", "biz_A", 50, false⟩]⟩
      "u1" "evt_9" ⟨50, "biz_A", some "event", none⟩ ⟨50, "biz_A", false⟩
      (by decide) (by decide) rfl (by rfl)).2.1

end Functions

theorem redeemDealRun_ok_len (st st' : PointsService.ServiceState)
    (userId orgId dealId : String) (cost : Int)
    (r : PointsService.RedemptionResult)
    (h : PointsService.redeemDealRun st userId orgId dealId cost true
      = (st', .ok r)) :
    st'.transactions.length = st.transactions.length + 1 := by
  unfold PointsService.redeemDealRun at h
  cases h1 : alGet? st.users userId with
  | none => simp [h1] at h
  | some w =>
    simp only [h1] at h
    cases h2 : PointsService.redeemDealCore w orgId cost with
    | none => simp [h2] at h
    | some p =>
      obtain ⟨w', ls, ds⟩ := p
      simp only [h2, if_pos] at h
      rw [Prod.mk.injEq] at h
      obtain ⟨hst, -⟩ := h
      rw [← hst]
      simp

/-- **C1 (amended)** — settlement replay performs exactly one balance
mutation and one audit record on the earn path, but the second
`awardPoints` call is rejected with an already-exists error instead of
returning the original result (the state is unchanged by the replay); the
spend path has no idempotency guard at all: a second identical successful
`redeemDeal` call deducts again and appends a second audit record. -/
theorem settle_replay_amended :
    (∀ (st st1 : Functions.CloudState) (userId eventId : String)
        (r1 : Functions.AwardPointsResult),
      Functions.awardPoints st userId eventId = (st1, .ok r1) →
      Functions.awardPoints st1 userId eventId
        = (st1, .error .alreadyExists)) ∧
    (∀ (st st1 st2 : PointsService.ServiceState)
        (userId orgId dealId : String) (cost : Int)
        (r1 r2 : PointsService.RedemptionResult),
      PointsService.redeemDealRun st userId orgId dealId cost true
        = (st1, .ok r1) →
      PointsService.redeemDealRun st1 userId orgId dealId cost true
        = (st2, .ok r2) →
      st2.transactions.length = st.transactions.length + 2) := by
  constructor
  · intro st st1 userId eventId r1 hok
    obtain ⟨-, ev, u, -, -, -, -, -, hst⟩ := Functions.awardPoints_ok_elim hok
    have hrec : Functions.hasEarnRecord st1.transactions userId eventId
        = true := by
      rw [hst]
      simp [Functions.hasEarnRecord]
    unfold Functions.awardPoints
    simp [hrec]
  · intro st st1 st2 userId orgId dealId cost r1 r2 h1 h2
    have l1 := redeemDealRun_ok_len st st1 userId orgId dealId cost r1 h1
    have l2 := redeemDealRun_ok_len st1 st2 userId orgId dealId cost r2 h2
    omega

/-- **C1 (counterexample)** — the claim fails at a concrete input: after a
successful `awardPoints` settlement the identical second call returns the
`already-exists` error, not the original successful result; and two
identical `redeemDeal` spends both succeed, deducting twice (30 → 10) and
appending two audit records. -/
theorem settle_replay_counterexample :
    (Functions.awardPoints
        ⟨[("evt_42", ⟨50, "cafe1", some "event", none⟩)],
          [("u1", ⟨none, some [], some 0⟩)], []⟩ "u1" "evt_42").2
      = .ok ⟨50, "cafe1", false⟩ ∧
    (Functions.awardPoints
        (Functions.awardPoints
          ⟨[("evt_42", ⟨50, "cafe1", some "event", none⟩)],
            [("u1", ⟨none, some [], some 0⟩)], []⟩ "u1" "evt_42").1
        "u1" "evt_42").2
      = .error .alreadyExists ∧
    (PointsService.redeemDealRun
        (PointsService.redeemDealRun
          ⟨[("u2", ⟨[("cafe1", 30)], 0, []⟩)], []⟩
          "u2" "cafe1" "d1" 10 true).1
        "u2" "cafe1" "d1" 10 true).1
      = ⟨[("u2", ⟨[("cafe1", 10)], 0, []⟩)],
        [⟨"u2", "cafe1", "d1", 10, 10, 0⟩, ⟨"u2", "cafe1", "d1", 10, 10, 0⟩]⟩ :=
  ⟨rfl, rfl, rfl⟩

/-- Witness for the amended C1, at the concrete replayed settlement. -/
theorem settle_replay_amended_witness :
    Functions.awardPoints
        ⟨[("evt_42", ⟨50, "cafe1", some "event", none⟩)],
          [("u1", ⟨none, some [("cafe1", 50)], some 50⟩)],
          [⟨"earn", "u1", "evt_42", none, "cafe1", "cafe1", 50, false⟩]⟩
        "u1" "evt_42"
      = (⟨[("evt_42", ⟨50, "cafe1", some "event", none⟩)],
          [("u1", ⟨none, some [("cafe1", 50)], some 50⟩)],
          [⟨"earn", "u1", "evt_42", none, "cafe1", "cafe1", 50, false⟩]⟩,
        .error .alreadyExists) ∧
    (⟨[("u2", ⟨[("cafe1", 10)], 0, []⟩)],
        [⟨"u2", "cafe1", "d1", 10, 10, 0⟩, ⟨"u2", "cafe1", "d1", 10, 10, 0⟩]⟩
      : PointsService.ServiceState).transactions.length
      = ([] : List PointsService.SpendRecord).length + 2 := by
  constructor
  · exact settle_replay_amended.1
      ⟨[("evt_42", ⟨50, "cafe1", some "event", none⟩)],
        [("u1", ⟨none, some [], some 0⟩)], []⟩
      ⟨[("evt_42", ⟨50, "cafe1", some "event", none⟩)],
        [("u1", ⟨none, some [("cafe1", 50)], some 50⟩)],
        [⟨"earn", "u1", "evt_42", none, "cafe1", "cafe1", 50, false⟩]⟩
      "u1" "evt_42" ⟨50, "cafe1", false⟩ (by rfl)
  · exact settle_replay_amended.2
      ⟨[("u2", ⟨[("cafe1", 30)], 0, []⟩)], []⟩
      ⟨[("u2", ⟨[("cafe1", 20)], 0, []⟩)],
        [⟨"u2", "cafe1", "d1", 10, 10, 0⟩]⟩
      ⟨[("u2", ⟨[("cafe1", 10)], 0, []⟩)],
        [⟨"u2", "cafe1", "d1", 10, 10, 0⟩, ⟨"u2", "cafe1", "d1", 10, 10, 0⟩]⟩
      "u2" "cafe1" "d1" 10 ⟨0, 10, 0⟩ ⟨1, 10, 0⟩ (by rfl) (by rfl)

/-- **C3 (counterexample)** — the audit append is not atomic with the
balance mutation: at a concrete input, when the `addDoc` after the
`redeemDeal` transaction fails, the wallet is already deducted (30 → 20)
while the `transactions` collection is unchanged — a balance change with no
audit record. -/
theorem audit_not_atomic_counterexample :
    PointsService.redeemDealRun ⟨[("u2", ⟨[("cafe1", 30)], 0, []⟩)], []⟩
        "u2" "cafe1" "d1" 10 false
      = (⟨[("u2", ⟨[("cafe1", 20)], 0, []⟩)], []⟩, .error .storageFailure) :=
  rfl

/-- **C3 (amended)** — in `redeemDeal` and `claimPoints` the balance check
and wallet mutation are transactional, but the audit append is a separate
later write: when it fails, no audit record is created yet the wallet
mutation stands exactly as in the successful run (nothing is rolled back);
conversely an audit record only ever appears in executions whose result is
success, i.e. there is never an audit record without its balance mutation. -/
theorem audit_not_atomic_amended :
    (∀ (st : PointsService.ServiceState) (userId orgId dealId : String)
        (cost : Int),
      (PointsService.redeemDealRun st userId orgId dealId cost
          false).1.transactions = st.transactions ∧
      (PointsService.redeemDealRun st userId orgId dealId cost false).1.users
        = (PointsService.redeemDealRun st userId orgId dealId cost
          true).1.users ∧
      (∀ (auditOk : Bool) st' res,
        PointsService.redeemDealRun st userId orgId dealId cost auditOk
          = (st', res) →
        st'.transactions ≠ st.transactions →
        ∃ r, res = .ok r)) ∧
    (∀ (st : TransactionService.ClaimState) (userId orbId : String)
        (eventPoints : Option Int),
      (TransactionService.claimPointsRun st userId orbId eventPoints
          false).1.transactions = st.transactions ∧
      (TransactionService.claimPointsRun st userId orbId eventPoints
          false).1.users
        = (TransactionService.claimPointsRun st userId orbId eventPoints
          true).1.users) := by
  constructor
  · intro st userId orgId dealId cost
    refine ⟨?_, ?_, ?_⟩
    · cases h1 : alGet? st.users userId with
      | none => simp [PointsService.redeemDealRun, h1]
      | some w =>
        cases h2 : PointsService.redeemDealCore w orgId cost with
        | none => simp [PointsService.redeemDealRun, h1, h2]
        | some p =>
          obtain ⟨w', ls, ds⟩ := p
          simp [PointsService.redeemDealRun, h1, h2]
    · cases h1 : alGet? st.users userId with
      | none => simp [PointsService.redeemDealRun, h1]
      | some w =>
        cases h2 : PointsService.redeemDealCore w orgId cost with
        | none => simp [PointsService.redeemDealRun, h1, h2]
        | some p =>
          obtain ⟨w', ls, ds⟩ := p
          simp [PointsService.redeemDealRun, h1, h2]
    · intro auditOk st' res h hne
      cases h1 : alGet? st.users userId with
      | none =>
        simp [PointsService.redeemDealRun, h1] at h
        obtain ⟨hst, -⟩ := h
        exact absurd (congrArg (fun s => s.transactions) hst.symm) hne
      | some w =>
        cases h2 : PointsService.redeemDealCore w orgId cost with
        | none =>
          simp [PointsService.redeemDealRun, h1, h2] at h
          obtain ⟨hst, -⟩ := h
          exact absurd (congrArg (fun s => s.transactions) hst.symm) hne
        | some p =>
          obtain ⟨w', ls, ds⟩ := p
          cases auditOk with
          | false =>
            simp [PointsService.redeemDealRun, h1, h2] at h
            obtain ⟨hst, -⟩ := h
            exact absurd (congrArg (fun s => s.transactions) hst.symm) hne
          | true =>
            simp [PointsService.redeemDealRun, h1, h2] at h
            obtain ⟨-, hres⟩ := h
            exact ⟨_, hres.symm⟩
  · intro st userId orbId eventPoints
    exact ⟨rfl, rfl⟩

/-- Witness for the amended C3 at the concrete failed-append run. -/
theorem audit_not_atomic_amended_witness :
    (PointsService.redeemDealRun ⟨[("u2", ⟨[("cafe1", 30)], 0, []⟩)], []⟩
        "u2" "cafe1" "d1" 10 false).1.transactions
      = ([] : List PointsService.SpendRecord) ∧
    ∃ r, (.ok ⟨0, 10, 0⟩ : Except PointsService.RedeemErr
        PointsService.RedemptionResult) = .ok r := by
  constructor
  · exact (audit_not_atomic_amended.1
      ⟨[("u2", ⟨[("cafe1", 30)], 0, []⟩)], []⟩ "u2" "cafe1" "d1" 10).1
  · exact (audit_not_atomic_amended.1
      ⟨[("u2", ⟨[("cafe1", 30)], 0, []⟩)], []⟩ "u2" "cafe1" "d1" 10).2.2
      true ⟨[("u2", ⟨[("cafe1", 20)], 0, []⟩)],
        [⟨"u2", "cafe1", "d1", 10, 10, 0⟩]⟩
      (.ok ⟨0, 10, 0⟩) (by rfl) (by decide)

namespace PointsService

/-- A wallet operation of the three-pool service: an earn (service
`awardPoints`), a spend (`redeemDeal`), or a designation
(`designateUniversalPoints`). -/
inductive WalletOp
  | earn (orgId : Option String) (amount : Int) (isVolunteer : Bool)
  | spend (orgId : String) (cost : Int)
  | designate (orgId : String) (amount : Int)
  deriving Repr, DecidableEq

/-- Apply one operation to a wallet; a rejected operation (aborted
transaction) leaves the wallet unchanged. -/
def applyOp (wallet : PointsWallet) : WalletOp → PointsWallet
  | .earn orgId amount isVolunteer =>
    awardPointsService wallet orgId amount isVolunteer
  | .spend orgId cost =>
    match redeemDealCore wallet orgId cost with
    | some (wallet', _, _) => wallet'
    | none => wallet
  | .designate orgId amount =>
    (designateUniversalPoints wallet orgId amount).getD wallet

/-- Every balance of the wallet — locked, universal and designated — is
non-negative. -/
def WalletNonNeg (wallet : PointsWallet) : Prop :=
  SMap.NonNeg wallet.locked ∧ 0 ≤ wallet.universal ∧
    SMap.NonNeg wallet.designated

/-- Earn amounts and designation amounts are non-negative (spends carry no
restriction). -/
def ValidOp : WalletOp → Prop
  | .earn _ amount _ => 0 ≤ amount
  | .spend _ _ => True
  | .designate _ amount => 0 ≤ amount

theorem walletNonNeg_award {wallet : PointsWallet} (h : WalletNonNeg wallet)
    {amount : Int} (ha : 0 ≤ amount) (orgId : Option String)
    (isVolunteer : Bool) :
    WalletNonNeg (awardPointsService wallet orgId amount isVolunteer) := by
  obtain ⟨hl, hu, hd⟩ := h
  unfold awardPointsService
  cases isVolunteer with
  | true => exact ⟨hl, (by omega : 0 ≤ wallet.universal + amount), hd⟩
  | false =>
    cases orgId with
    | none => exact ⟨hl, hu, hd⟩
    | some o =>
      by_cases ho : o = ""
      · simp only [ho, if_pos]
        exact ⟨hl, hu, hd⟩
      · simp only [if_neg ho]
        refine ⟨?_, hu, hd⟩
        have := nonneg_mget hl o
        exact nonneg_alSet hl (by omega) o

theorem walletNonNeg_redeem {wallet wallet' : PointsWallet} {orgId : String}
    {cost lockedSpent designatedSpent : Int} (h : WalletNonNeg wallet)
    (hc : redeemDealCore wallet orgId cost
      = some (wallet', lockedSpent, designatedSpent)) :
    WalletNonNeg wallet' := by
  obtain ⟨hl, hu, hd⟩ := h
  revert hc
  unfold redeemDealCore
  dsimp only
  split_ifs <;> intro hc
  all_goals first
  | exact hc.elim
  | (dsimp only at hc
     simp only [Option.some.injEq, Prod.mk.injEq] at hc
     obtain ⟨hw, -, -⟩ := hc
     subst hw
     refine ⟨?_, ?_, ?_⟩
     all_goals try dsimp only
     all_goals first
     | exact hl
     | exact hd
     | exact hu
     | exact nonneg_alErase (nonneg_alSet hl (by omega) _) _
     | exact nonneg_alErase (nonneg_alSet hd (by omega) _) _
     | exact nonneg_alSet hl (by omega) _
     | exact nonneg_alSet hd (by omega) _)

theorem walletNonNeg_designate {wallet wallet' : PointsWallet}
    {orgId : String} {amount : Int} (h : WalletNonNeg wallet)
    (ha : 0 ≤ amount)
    (hc : designateUniversalPoints wallet orgId amount = some wallet') :
    WalletNonNeg wallet' := by
  obtain ⟨hl, hu, hd⟩ := h
  unfold designateUniversalPoints at hc
  split_ifs at hc with hlt
  simp only [Option.some.injEq] at hc
  subst hc
  refine ⟨hl, (by omega : 0 ≤ wallet.universal - amount), ?_⟩
  have := nonneg_mget hd orgId
  exact nonneg_alSet hd (by omega) orgId

theorem walletNonNeg_applyOp (wallet : PointsWallet) (op : WalletOp)
    (h : WalletNonNeg wallet) (hv : ValidOp op) :
    WalletNonNeg (applyOp wallet op) := by
  cases op with
  | earn orgId amount isVolunteer => exact walletNonNeg_award h hv orgId isVolunteer
  | spend orgId cost =>
    show WalletNonNeg (match redeemDealCore wallet orgId cost with
      | some (wallet', _, _) => wallet'
      | none => wallet)
    cases hc : redeemDealCore wallet orgId cost with
    | none => exact h
    | some p =>
      obtain ⟨wallet', ls, ds⟩ := p
      exact walletNonNeg_redeem h hc
  | designate orgId amount =>
    show WalletNonNeg ((designateUniversalPoints wallet orgId amount).getD wallet)
    cases hc : designateUniversalPoints wallet orgId amount with
    | none => exact h
    | some wallet' => exact walletNonNeg_designate h hv hc

/-- **C5 (amended)** — starting from a wallet with all balances
non-negative, any sequence of earn settlements with non-negative amounts,
arbitrary spend settlements, and designations with non-negative amounts
keeps every observable balance non-negative: insufficient spends are
rejected, not clamped. (The restriction to non-negative designation amounts
is forced by the counterexample: the code never checks the sign.) -/
theorem wallet_nonneg_invariant (ops : List WalletOp) :
    ∀ (wallet : PointsWallet), WalletNonNeg wallet →
    (∀ op ∈ ops, ValidOp op) →
    WalletNonNeg (ops.foldl applyOp wallet) := by
  induction ops with
  | nil => exact fun wallet h _ => h
  | cons op rest ih =>
    intro wallet h hv
    simp only [List.foldl_cons]
    exact ih _ (walletNonNeg_applyOp wallet op h (hv op (by simp)))
      (fun op' hop' => hv op' (List.mem_cons_of_mem _ hop'))

/-- **C5 (counterexample)** — from the all-zero (hence non-negative)
wallet, the designation operation with amount −5 is accepted (the only
guard, `universal < amount`, passes since `0 < -5` is false) and leaves the
observable designated balance at −5 — a negative balance after a wallet
operation. -/
theorem wallet_nonneg_counterexample :
    WalletNonNeg ⟨[], 0, []⟩ ∧
    applyOp ⟨[], 0, []⟩ (.designate "org" (-5)) = ⟨[], 5, [("org", -5)]⟩ ∧
    mget ([("org", -5)] : SMap) "org" < 0 := by
  refine ⟨⟨fun p hp => by simp at hp, by norm_num, fun p hp => by simp at hp⟩,
    rfl, by decide⟩

/-- Witness for the amended C5: a concrete valid sequence — designate 5,
spend 32 (covered 30 locked + 2 designated), earn 7 — preserves
non-negativity starting from locked 30 / universal 5. -/
theorem wallet_nonneg_invariant_witness :
    WalletNonNeg (List.foldl applyOp ⟨[("cafe1", 30)], 5, []⟩
      [.designate "cafe1" 5, .spend "cafe1" 32,
        .earn (some "cafe1") 7 false]) := by
  refine wallet_nonneg_invariant _ _
    ⟨fun p hp => by simp at hp; simp [hp], by norm_num, fun p hp => by simp at hp⟩
    ?_
  intro op hop
  simp only [List.mem_cons, List.not_mem_nil, or_false] at hop
  rcases hop with rfl | rfl | rfl <;> simp [ValidOp]

end PointsService

namespace TransactionService

/-- **C10** — in the `claimPoints` earn path, a single accepted earn whose
orb resolves to an organization other than `"universal"` increments BOTH
`pointsWallet[orgId]` and `pointsWallet.universal` by the awarded points
`N`: the sum of wallet balances grows by `2 * N` per earn while
`totalPointsEarned` grows by only `N`. -/
theorem claimPoints_double_credit (wallet : SMap) (totalEarned : Int)
    (orbId : String) (eventPoints : Option Int)
    (h : (getOrgFromOrbId orbId).orgId ≠ "universal") :
    mget (claimPointsCore wallet totalEarned orbId eventPoints).1
        (getOrgFromOrbId orbId).orgId
      = mget wallet (getOrgFromOrbId orbId).orgId
        + pointsToAward eventPoints (getOrgFromOrbId orbId).defaultPoints ∧
    mget (claimPointsCore wallet totalEarned orbId eventPoints).1 "universal"
      = mget wallet "universal"
        + pointsToAward eventPoints (getOrgFromOrbId orbId).defaultPoints ∧
    msum (claimPointsCore wallet totalEarned orbId eventPoints).1
      = msum wallet
        + 2 * pointsToAward eventPoints (getOrgFromOrbId orbId).defaultPoints ∧
    (claimPointsCore wallet totalEarned orbId eventPoints).2.1
      = totalEarned
        + pointsToAward eventPoints (getOrgFromOrbId orbId).defaultPoints := by
  unfold claimPointsCore
  dsimp only
  rw [if_neg h]
  refine ⟨?_, ?_, ?_, rfl⟩
  · rw [mget_alSet_ne _ _ h, mget_alSet_self]
  · rw [mget_alSet_self]
  · have h1 : mget wallet "universal"
        = mget (alSet wallet (getOrgFromOrbId orbId).orgId
          (mget wallet (getOrgFromOrbId orbId).orgId
            + pointsToAward eventPoints
              (getOrgFromOrbId orbId).defaultPoints)) "universal" :=
      (mget_alSet_ne _ _ (fun hx => h hx.symm)).symm
    rw [h1, msum_alSet_add, msum_alSet_add]
    ring

/-- Witness for C10 at orb `ORB_001` (organization
`jacob_alejandro_troy`, default 10 points) on a wallet holding 5 universal
points: the wallet total grows by 20 while `totalPointsEarned` grows by 10. -/
theorem claimPoints_double_credit_witness :
    (getOrgFromOrbId "ORB_001").orgId ≠ "universal" ∧
    msum (claimPointsCore [("universal", 5)] 7 "ORB_001" none).1
      = msum ([("universal", 5)] : SMap) + 2 * 10 ∧
    (claimPointsCore [("universal", 5)] 7 "ORB_001" none).2.1 = 7 + 10 := by
  have h10 : pointsToAward none (getOrgFromOrbId "ORB_001").defaultPoints
      = 10 := rfl
  refine ⟨by decide, ?_, ?_⟩
  · have hsum :=
      (claimPoints_double_credit [("universal", 5)] 7 "ORB_001" none
        (by decide)).2.2.1
    rw [h10] at hsum
    exact hsum
  · have htot :=
      (claimPoints_double_credit [("universal", 5)] 7 "ORB_001" none
        (by decide)).2.2.2
    rw [h10] at htot
    exact htot

end TransactionService

namespace UserOrb

/-- **C7 (counterexample)** — a brand-new peer whose very first sample
crosses the Claim threshold (−30 > −40) produces NO event when the sample
arrives 1000 ms after boot: the fresh entry's zero-initialized stamp makes
`millis() - 0 > 5000` false, so the cooldown suppresses the first sighting. -/
theorem first_sighting_counterexample :
    RSSI_CLAIM < (-30 : Int) ∧
    (processSample [] "EVENT_123" (-30) 1000).2 = none :=
  ⟨by decide, rfl⟩

theorem findIdx?_none_of_fresh (cds : List EventCooldown) (eventId : String)
    (hnew : ∀ c ∈ cds, c.eventId ≠ eventId) :
    cds.findIdx? (fun c => c.eventId == eventId) = none := by
  rw [List.findIdx?_eq_none_iff]
  intro c hc
  simp [hnew c hc]

/-- **C7 (amended)** — the first-sighting bypass holds only after the
device has been up longer than the claim cooldown: for every brand-new
peer-id and every `now > 5000` ms, the first sample crossing the Claim
threshold emits the Claim event immediately. -/
theorem first_sighting_amended (cds : List EventCooldown) (eventId : String)
    (rssi : Int) (now : Nat)
    (hnew : ∀ c ∈ cds, c.eventId ≠ eventId)
    (hrssi : RSSI_CLAIM < rssi)
    (hnow : CLAIM_COOLDOWN_MS < now) :
    (processSample cds eventId rssi now).2 = some (.claim eventId) := by
  have hfind := findIdx?_none_of_fresh cds eventId hnew
  have hcan : canSendClaim now ⟨eventId, 0, 0⟩ = true := by
    simp only [canSendClaim, EventCooldown.lastClaimNotify, Nat.sub_zero,
      decide_eq_true_eq]
    exact hnow
  unfold processSample findOrCreateCooldown
  rw [hfind]
  by_cases hlen : cds.length < MAX_TRACKED_EVENTS
  · rw [if_pos hlen]
    dsimp only
    have hget : (cds ++ [(⟨eventId, 0, 0⟩ : EventCooldown)]).getD cds.length
        ⟨eventId, 0, 0⟩ = ⟨eventId, 0, 0⟩ := by
      rw [List.getD_eq_getElem?_getD, List.getElem?_concat_length]
      rfl
    rw [hget, if_pos hrssi, if_pos hcan]
  · rw [if_neg hlen]
    dsimp only
    have hpos : 0 < cds.length := by
      simp only [MAX_TRACKED_EVENTS] at hlen
      omega
    have hget : (cds.set 0 ⟨eventId, 0, 0⟩).getD 0 ⟨eventId, 0, 0⟩
        = ⟨eventId, 0, 0⟩ := by
      rw [List.getD_eq_getElem?_getD, List.getElem?_set_eq_of_lt _ hpos]
      rfl
    rw [hget, if_pos hrssi, if_pos hcan]

/-- Witness for the amended C7: empty tracking state, rssi −30, now 6000. -/
theorem first_sighting_amended_witness :
    RSSI_CLAIM < (-30 : Int) ∧ CLAIM_COOLDOWN_MS < 6000 ∧
    (processSample [] "EVENT_123" (-30) 6000).2
      = some (.claim "EVENT_123") := by
  refine ⟨by decide, by decide, ?_⟩
  exact first_sighting_amended [] "EVENT_123" (-30) 6000
    (fun c hc => absurd hc (List.not_mem_nil c)) (by decide) (by decide)

theorem findOrCreateCooldown_length (cds : List EventCooldown)
    (eventId : String) (h : cds.length ≤ MAX_TRACKED_EVENTS) :
    (findOrCreateCooldown cds eventId).1.length ≤ MAX_TRACKED_EVENTS := by
  unfold findOrCreateCooldown
  cases hfind : cds.findIdx? (fun c => c.eventId == eventId) with
  | some i => exact h
  | none =>
    by_cases hlen : cds.length < MAX_TRACKED_EVENTS
    · rw [if_pos hlen]
      simp only [List.length_append, List.length_singleton]
      omega
    · rw [if_neg hlen]
      simpa using h

/-- **C8 (counterexample)** — with the structure full, slot 0 holding the
MOST recently active peer `E0` (activity stamp 100) and slot 1 the least
recently active `E1` (stamp 1), a new peer overwrites slot 0: the evicted
entry is `E0`, not the tracked peer with the lowest last-activity
timestamp, which survives. -/
theorem eviction_counterexample :
    (findOrCreateCooldown
        [⟨"E0", 100, 100⟩, ⟨"E1", 1, 1⟩, ⟨"E2", 2, 2⟩, ⟨"E3", 3, 3⟩,
          ⟨"E4", 4, 4⟩, ⟨"E5", 5, 5⟩, ⟨"E6", 6, 6⟩, ⟨"E7", 7, 7⟩,
          ⟨"E8", 8, 8⟩, ⟨"E9", 9, 9⟩] "NEW").1
      = [⟨"NEW", 0, 0⟩, ⟨"E1", 1, 1⟩, ⟨"E2", 2, 2⟩, ⟨"E3", 3, 3⟩,
          ⟨"E4", 4, 4⟩, ⟨"E5", 5, 5⟩, ⟨"E6", 6, 6⟩, ⟨"E7", 7, 7⟩,
          ⟨"E8", 8, 8⟩, ⟨"E9", 9, 9⟩] ∧
    (∀ c ∈ (findOrCreateCooldown
        [⟨"E0", 100, 100⟩, ⟨"E1", 1, 1⟩, ⟨"E2", 2, 2⟩, ⟨"E3", 3, 3⟩,
          ⟨"E4", 4, 4⟩, ⟨"E5", 5, 5⟩, ⟨"E6", 6, 6⟩, ⟨"E7", 7, 7⟩,
          ⟨"E8", 8, 8⟩, ⟨"E9", 9, 9⟩] "NEW").1,
      c.eventId ≠ "E0") ∧
    (1 : Nat) < 100 := by
  refine ⟨rfl, ?_, by decide⟩
  decide

/-- **C8 (amended)** — the tracked-peer structure is bounded: starting
within the capacity (10 entries) it never exceeds it, neither through
`findOrCreateCooldown` nor through a whole `processSample` step; and when
the structure is full, a new peer always overwrites array slot 0 —
regardless of the entries' last-activity timestamps. -/
theorem eviction_amended :
    (∀ (cds : List EventCooldown) (eventId : String),
      cds.length ≤ MAX_TRACKED_EVENTS →
      (findOrCreateCooldown cds eventId).1.length ≤ MAX_TRACKED_EVENTS) ∧
    (∀ (cds : List EventCooldown) (eventId : String) (rssi : Int) (now : Nat),
      cds.length ≤ MAX_TRACKED_EVENTS →
      (processSample cds eventId rssi now).1.length ≤ MAX_TRACKED_EVENTS) ∧
    (∀ (cds : List EventCooldown) (eventId : String),
      cds.findIdx? (fun c => c.eventId == eventId) = none →
      ¬ cds.length < MAX_TRACKED_EVENTS →
      (findOrCreateCooldown cds eventId).1 = cds.set 0 ⟨eventId, 0, 0⟩) := by
  refine ⟨findOrCreateCooldown_length, ?_, ?_⟩
  · intro cds eventId rssi now h
    have hb := findOrCreateCooldown_length cds eventId h
    unfold processSample
    dsimp only
    split_ifs <;> simpa using hb
  · intro cds eventId hfind hfull
    unfold findOrCreateCooldown
    rw [hfind, if_neg hfull]

/-- Witness for the amended C8 at the full concrete state: the bound holds
and the eviction hits slot 0. -/
theorem eviction_amended_witness :
    (findOrCreateCooldown
        [⟨"E0", 100, 100⟩, ⟨"E1", 1, 1⟩, ⟨"E2", 2, 2⟩, ⟨"E3", 3, 3⟩,
          ⟨"E4", 4, 4⟩, ⟨"E5", 5, 5⟩, ⟨"E6", 6, 6⟩, ⟨"E7", 7, 7⟩,
          ⟨"E8", 8, 8⟩, ⟨"E9", 9, 9⟩] "NEW").1.length ≤ MAX_TRACKED_EVENTS ∧
    (findOrCreateCooldown
        [⟨"E0", 100, 100⟩, ⟨"E1", 1, 1⟩, ⟨"E2", 2, 2⟩, ⟨"E3", 3, 3⟩,
          ⟨"E4", 4, 4⟩, ⟨"E5", 5, 5⟩, ⟨"E6", 6, 6⟩, ⟨"E7", 7, 7⟩,
          ⟨"E8", 8, 8⟩, ⟨"E9", 9, 9⟩] "NEW").1
      = ([⟨"E0", 100, 100⟩, ⟨"E1", 1, 1⟩, ⟨"E2", 2, 2⟩, ⟨"E3", 3, 3⟩,
          ⟨"E4", 4, 4⟩, ⟨"E5", 5, 5⟩, ⟨"E6", 6, 6⟩, ⟨"E7", 7, 7⟩,
          ⟨"E8", 8, 8⟩, ⟨"E9", 9, 9⟩] : List EventCooldown).set 0
          ⟨"NEW", 0, 0⟩ := by
  constructor
  · exact eviction_amended.1
      [⟨"E0", 100, 100⟩, ⟨"E1", 1, 1⟩, ⟨"E2", 2, 2⟩, ⟨"E3", 3, 3⟩,
        ⟨"E4", 4, 4⟩, ⟨"E5", 5, 5⟩, ⟨"E6", 6, 6⟩, ⟨"E7", 7, 7⟩,
        ⟨"E8", 8, 8⟩, ⟨"E9", 9, 9⟩] "NEW" (by decide)
  · exact eviction_amended.2.2
      [⟨"E0", 100, 100⟩, ⟨"E1", 1, 1⟩, ⟨"E2", 2, 2⟩, ⟨"E3", 3, 3⟩,
        ⟨"E4", 4, 4⟩, ⟨"E5", 5, 5⟩, ⟨"E6", 6, 6⟩, ⟨"E7", 7, 7⟩,
        ⟨"E8", 8, 8⟩, ⟨"E9", 9, 9⟩] "NEW" (by decide) (by decide)

end UserOrb
